import Mathlib

/-!
Verification development for the `faraway_lib` TCP framework
(`backend/golang/core/tcp`): PoW codec, rate limiter, admission
middleware, retry wrapper, connection pool and server stats.

Byte streams are modelled as `List Nat` (each element a byte value),
machine integers as `Nat`/`Int` with explicit reductions modulo `2^w`
where the Go code converts between widths, wall-clock time as an
explicit `Int` parameter (nanoseconds, matching Go `time.Duration`
units; Unix-second timestamps are used where the Go code uses
`time.Time.Unix`).
-/

namespace Faraway

/-! ## Byte and 32-bit word helpers (semantics of `encoding/binary`) -/

/-- Truncation of a value to one byte, the semantics of Go `byte(x)`. -/
def toByte (x : Nat) : Nat := x % 256

/-- Big-endian 8-byte encoding of a 64-bit value, the semantics of
`binary.BigEndian.PutUint64`. -/
def putUint64 (v : Nat) : List Nat :=
  [toByte (v >>> 56), toByte (v >>> 48), toByte (v >>> 40), toByte (v >>> 32),
   toByte (v >>> 24), toByte (v >>> 16), toByte (v >>> 8), toByte v]

/-- Big-endian 4-byte encoding of a 32-bit value, the semantics of
`binary.BigEndian.PutUint32`. -/
def putUint32 (v : Nat) : List Nat :=
  [toByte (v >>> 24), toByte (v >>> 16), toByte (v >>> 8), toByte v]

/-- Big-endian decoding of 8 bytes, the semantics of
`binary.BigEndian.Uint64`. -/
def beUint64 (b0 b1 b2 b3 b4 b5 b6 b7 : Nat) : Nat :=
  ((((((b0 * 256 + b1) * 256 + b2) * 256 + b3) * 256 + b4) * 256 + b5) * 256 + b6) * 256 + b7

/-- Big-endian decoding of 4 bytes, the semantics of
`binary.BigEndian.Uint32`. -/
def beUint32 (b0 b1 b2 b3 : Nat) : Nat :=
  ((b0 * 256 + b1) * 256 + b2) * 256 + b3

/-- Go `uint64(x)` applied to an `int64` value: two's-complement
reduction modulo `2^64`. -/
def int64ToUint64 (x : Int) : Nat := (x % (2 ^ 64 : Int)).toNat

/-- Go `int64(u)` applied to a `uint64` value: two's-complement
reinterpretation. -/
def uint64ToInt64 (u : Nat) : Int :=
  if u < 2 ^ 63 then (u : Int) else (u : Int) - 2 ^ 64

/-- Go `uint32(x)` applied to an `int32` value. -/
def int32ToUint32 (x : Int) : Nat := (x % (2 ^ 32 : Int)).toNat

/-- Go `int32(u)` applied to a `uint32` value. -/
def uint32ToInt32 (u : Nat) : Int :=
  if u < 2 ^ 31 then (u : Int) else (u : Int) - 2 ^ 32

/-! ## SHA-256 (semantics of `crypto/sha256.Sum256`)

A direct executable model of FIPS 180-4 SHA-256 over byte lists,
used by `ValidatePoWSolution`. Words are `Nat` values kept below
`2 ^ 32` by the `% 2 ^ 32` reductions of the word operations. -/

/-- Addition modulo `2^32`. -/
def add32 (a b : Nat) : Nat := (a + b) % 4294967296

/-- Right rotation of a 32-bit word by `n` bits (`0 < n < 32`). -/
def rotr32 (n x : Nat) : Nat := (x / 2 ^ n) + (x % 2 ^ n) * 2 ^ (32 - n)

/-- Logical right shift of a 32-bit word. -/
def shr32 (n x : Nat) : Nat := x / 2 ^ n

/-- SHA-256 `Ch` function. -/
def sha256ch (x y z : Nat) : Nat := (x &&& y) ^^^ ((x ^^^ 4294967295) &&& z)

/-- SHA-256 `Maj` function. -/
def sha256maj (x y z : Nat) : Nat := (x &&& y) ^^^ (x &&& z) ^^^ (y &&& z)

/-- SHA-256 big sigma-0. -/
def bigSigma0 (x : Nat) : Nat := rotr32 2 x ^^^ rotr32 13 x ^^^ rotr32 22 x

/-- SHA-256 big sigma-1. -/
def bigSigma1 (x : Nat) : Nat := rotr32 6 x ^^^ rotr32 11 x ^^^ rotr32 25 x

/-- SHA-256 small sigma-0. -/
def smallSigma0 (x : Nat) : Nat := rotr32 7 x ^^^ rotr32 18 x ^^^ shr32 3 x

/-- SHA-256 small sigma-1. -/
def smallSigma1 (x : Nat) : Nat := rotr32 17 x ^^^ rotr32 19 x ^^^ shr32 10 x

/-- The 64 SHA-256 round constants (FIPS 180-4 section 4.2.2, here in
decimal). -/
def sha256K : List Nat :=
  [1116352408, 1899447441, 3049323471, 3921009573, 961987163,
   1508970993, 2453635748, 2870763221, 3624381080, 310598401,
   607225278, 1426881987, 1925078388, 2162078206, 2614888103,
   3248222580, 3835390401, 4022224774, 264347078, 604807628,
   770255983, 1249150122, 1555081692, 1996064986, 2554220882,
   2821834349, 2952996808, 3210313671, 3336571891, 3584528711,
   113926993, 338241895, 666307205, 773529912, 1294757372,
   1396182291, 1695183700, 1986661051, 2177026350, 2456956037,
   2730485921, 2820302411, 3259730800, 3345764771, 3516065817,
   3600352804, 4094571909, 275423344, 430227734, 506948616,
   659060556, 883997877, 958139571, 1322822218, 1537002063,
   1747873779, 1955562222, 2024104815, 2227730452, 2361852424,
   2428436474, 2756734187, 3204031479, 3329325298]

/-- The initial SHA-256 hash state (FIPS 180-4 section 5.3.3, in
decimal). -/
def sha256H0 : List Nat :=
  [1779033703, 3144134277, 1013904242, 2773480762,
   1359893119, 2600822924, 528734635, 1541459225]

/-- SHA-256 message padding: append `0x80`, zero bytes up to 56 mod 64,
then the bit length as 8 big-endian bytes. -/
def sha256pad (msg : List Nat) : List Nat :=
  msg ++ [128] ++ List.replicate ((55 + 64 - msg.length % 64) % 64) 0 ++
    putUint64 (8 * msg.length)

/-- Group a byte list into big-endian 32-bit words (4 bytes each). -/
def bytesToWords : List Nat → List Nat
  | b0 :: b1 :: b2 :: b3 :: rest => beUint32 b0 b1 b2 b3 :: bytesToWords rest
  | _ => []

/-- Split a list into 64-byte blocks; `fuel` bounds the recursion and is
instantiated with the list length. -/
def toBlocksFuel : Nat → List Nat → List (List Nat)
  | 0, _ => []
  | _, [] => []
  | fuel + 1, l => l.take 64 :: toBlocksFuel fuel (l.drop 64)

/-- Split a (padded) byte list into 64-byte blocks. -/
def toBlocks (l : List Nat) : List (List Nat) := toBlocksFuel l.length l

/-- One step of the SHA-256 message-schedule extension: append
`w[n-16] + s0(w[n-15]) + w[n-7] + s1(w[n-2])` modulo `2^32`. -/
def scheduleStep (w : List Nat) : List Nat :=
  let n := w.length
  w ++ [add32 (add32 (add32 (w.getD (n - 16) 0) (smallSigma0 (w.getD (n - 15) 0)))
      (w.getD (n - 7) 0)) (smallSigma1 (w.getD (n - 2) 0))]

/-- Extend the 16 block words to the 64 schedule words. -/
def sha256schedule (w16 : List Nat) : List Nat :=
  (List.range 48).foldl (fun w _ => scheduleStep w) w16

/-- One SHA-256 compression round; the state is the register list
`[a, b, c, d, e, f, g, h]` and `kw` the round constant paired with the
schedule word. -/
def sha256round (st : List Nat) (kw : Nat × Nat) : List Nat :=
  match st with
  | [a, b, c, d, e, f, g, h] =>
    let t1 := add32 (add32 (add32 (add32 h (bigSigma1 e)) (sha256ch e f g)) kw.1) kw.2
    let t2 := add32 (bigSigma0 a) (sha256maj a b c)
    [add32 t1 t2, a, b, c, add32 d t1, e, f, g]
  | other => other

/-- Compress one 64-byte block into the running hash state. -/
def sha256block (h : List Nat) (block : List Nat) : List Nat :=
  let w := sha256schedule (bytesToWords block)
  let st := (sha256K.zip w).foldl sha256round h
  List.zipWith add32 h st

/-- SHA-256 digest of a byte list as 32 bytes, the semantics of
`sha256.Sum256`. -/
def sha256 (msg : List Nat) : List Nat :=
  let hFinal := (toBlocks (sha256pad msg)).foldl sha256block sha256H0
  hFinal.flatMap putUint32

/-! ## PoW codec (`core/tcp/pow.go`) -/

/-- `PoWChallenge` from `pow.go`: `Timestamp int64`, `RandomBytes []byte`,
`Difficulty int32`. -/
structure PoWChallenge where
  Timestamp : Int
  RandomBytes : List Nat
  Difficulty : Int
deriving DecidableEq

/-- `PoWSolution` from `pow.go`: `Nonce uint64`. -/
structure PoWSolution where
  Nonce : Nat
deriving DecidableEq

/-- Leading-zero count of one byte: the inner loop of
`countLeadingZeros`, which scans bit 7 down to bit 0 and returns at the
first nonzero shift (for a nonzero byte the loop always returns; the
all-zero case is only reached for `b = 0`, handled by the `+8` branch of
the caller). -/
def clzByte (b : Nat) : Nat :=
  if b >>> 7 ≠ 0 then 0
  else if b >>> 6 ≠ 0 then 1
  else if b >>> 5 ≠ 0 then 2
  else if b >>> 4 ≠ 0 then 3
  else if b >>> 3 ≠ 0 then 4
  else if b >>> 2 ≠ 0 then 5
  else if b >>> 1 ≠ 0 then 6
  else if b ≠ 0 then 7
  else 8

/-- `countLeadingZeros` from `pow.go`: 8 per zero byte, then the leading
zero bits of the first nonzero byte. -/
def countLeadingZeros : List Nat → Int
  | [] => 0
  | b :: rest => if b = 0 then 8 + countLeadingZeros rest else (clzByte b : Int)

/-- The semantics of Go `copy(buf[8:40], c.RandomBytes)` into a zeroed
32-byte region: at most 32 bytes are copied, the remainder stays zero. -/
def copyInto32 (rb : List Nat) : List Nat :=
  rb.take 32 ++ List.replicate (32 - rb.length) 0

/-- The 48-byte hash input built by `ValidatePoWSolution`:
`PutUint64(uint64(Timestamp))`, `copy` of the random bytes, and
`PutUint64(Nonce)`. -/
def powBuffer (c : PoWChallenge) (s : PoWSolution) : List Nat :=
  putUint64 (int64ToUint64 c.Timestamp) ++ copyInto32 c.RandomBytes ++ putUint64 s.Nonce

/-- `ValidatePoWSolution` from `pow.go`; `now` is the value of
`time.Now().Unix()` at verification time. -/
def ValidatePoWSolution (now : Int) (c : PoWChallenge) (s : PoWSolution) : Bool :=
  if now - c.Timestamp > 60 then false
  else decide (c.Difficulty ≤ countLeadingZeros (sha256 (powBuffer c s)))

/-- Big-endian decoding of a byte list (documented semantics of
`binary.BigEndian.Uint64` / `Uint32` on the exact field width). -/
def beBytesToNat (l : List Nat) : Nat := l.foldl (fun acc b => acc * 256 + b) 0

/-- Exact-length read of `n` bytes from a stream, the semantics of
`io.ReadFull` / `binary.Read`: a short stream is an error. -/
def readBytes (n : Nat) (s : List Nat) : Option (List Nat × List Nat) :=
  if n ≤ s.length then some (s.take n, s.drop n) else none

/-- `WritePoWChallenge` from `pow.go`: big-endian `int64` timestamp,
the raw random bytes, big-endian `int32` difficulty. -/
def WritePoWChallenge (c : PoWChallenge) : List Nat :=
  putUint64 (int64ToUint64 c.Timestamp) ++ c.RandomBytes ++ putUint32 (int32ToUint32 c.Difficulty)

/-- `ReadPoWChallenge` from `pow.go`: 8-byte timestamp, 32 random
bytes, 4-byte difficulty; returns the record and the unread rest. -/
def ReadPoWChallenge (s : List Nat) : Option (PoWChallenge × List Nat) :=
  match readBytes 8 s with
  | none => none
  | some (tsB, r1) =>
    match readBytes 32 r1 with
    | none => none
    | some (rb, r2) =>
      match readBytes 4 r2 with
      | none => none
      | some (dB, r3) =>
        some (⟨uint64ToInt64 (beBytesToNat tsB), rb, uint32ToInt32 (beBytesToNat dB)⟩, r3)

/-- `WritePoWSolution` from `pow.go`: big-endian `uint64` nonce. -/
def WritePoWSolution (s : PoWSolution) : List Nat := putUint64 s.Nonce

/-- `ReadPoWSolution` from `pow.go`: 8-byte nonce. -/
def ReadPoWSolution (s : List Nat) : Option (PoWSolution × List Nat) :=
  match readBytes 8 s with
  | none => none
  | some (nB, r1) => some (⟨beBytesToNat nB⟩, r1)

/-! ## Rate limiter (`core/tcp/middleware.go`)

Time is in nanoseconds (`time.Duration` units); the maps are modelled
as functions from IP strings to optional entries and every method
returns the updated state alongside its result. -/

/-- One nanosecond-denominated second, Go `time.Second`. -/
def second : Int := 1000000000

/-- `defaultRateLimitPerIP` from `middleware.go`. -/
def defaultRateLimitPerIP : Int := 10

/-- `defaultInitialDifficulty` from `middleware.go`. -/
def defaultInitialDifficulty : Int := 4

/-- `maxDifficulty` from `middleware.go`. -/
def maxDifficulty : Int := 8

/-- `banDuration` from `middleware.go`: `1 * time.Minute`. -/
def banDuration : Int := 60 * second

/-- `rateCounter` from `middleware.go`. -/
structure RateCounter where
  count : Int
  timestamp : Int
deriving DecidableEq

/-- Point update of a string-keyed map. -/
def mapInsert {α : Type} (m : String → Option α) (k : String) (v : α) : String → Option α :=
  fun k2 => if k2 = k then some v else m k2

/-- Point removal from a string-keyed map, Go `delete`. -/
def mapDelete {α : Type} (m : String → Option α) (k : String) : String → Option α :=
  fun k2 => if k2 = k then none else m k2

/-- The three maps of `RateLimiter` guarded by its lock. -/
structure RateLimiter where
  connectionsPerIP : String → Option RateCounter
  bannedIPs : String → Option Int
  difficulties : String → Option Int

/-- `checkAndUpdateRate` from `middleware.go`: returns
`(allowConnection, shouldBan)` and the updated state; `now` is the
value of `time.Now()`. -/
def checkAndUpdateRate (r : RateLimiter) (now : Int) (ip : String) :
    (Bool × Bool) × RateLimiter :=
  match r.connectionsPerIP ip with
  | none =>
    ((true, false),
     { r with connectionsPerIP := mapInsert r.connectionsPerIP ip ⟨1, now⟩,
              difficulties := mapDelete r.difficulties ip })
  | some counter =>
    if second ≤ now - counter.timestamp then
      ((true, false),
       { r with connectionsPerIP := mapInsert r.connectionsPerIP ip ⟨1, now⟩,
                difficulties := mapDelete r.difficulties ip })
    else
      -- the counter object is incremented in place, then the entry is
      -- dropped when the incremented count exceeds the limit
      if defaultRateLimitPerIP < counter.count + 1 then
        ((false, true),
         { r with bannedIPs := mapInsert r.bannedIPs ip (now + banDuration),
                  connectionsPerIP := mapDelete r.connectionsPerIP ip })
      else
        ((true, false),
         { r with connectionsPerIP :=
            mapInsert r.connectionsPerIP ip ⟨counter.count + 1, counter.timestamp⟩ })

/-- `isBanned` from `middleware.go`: lazily evicts an expired ban. -/
def isBanned (r : RateLimiter) (now : Int) (ip : String) : Bool × RateLimiter :=
  match r.bannedIPs ip with
  | none => (false, r)
  | some banTime =>
    if banTime < now then (false, { r with bannedIPs := mapDelete r.bannedIPs ip })
    else (true, r)

/-- `getDifficultyLocked` from `middleware.go`: an absent entry reads
as the initial difficulty. -/
def getDifficultyLocked (r : RateLimiter) (ip : String) : Int :=
  match r.difficulties ip with
  | none => defaultInitialDifficulty
  | some d => d

/-- `getDifficulty` from `middleware.go` (the locking wrapper). -/
def getDifficulty (r : RateLimiter) (ip : String) : Int := getDifficultyLocked r ip

/-- `increaseDifficulty` from `middleware.go`: add one, capped at
`maxDifficulty`. -/
def increaseDifficulty (r : RateLimiter) (ip : String) : RateLimiter :=
  let currentDifficulty := getDifficultyLocked r ip
  if currentDifficulty < maxDifficulty then
    { r with difficulties := mapInsert r.difficulties ip (currentDifficulty + 1) }
  else r

/-- `decreaseDifficulty` from `middleware.go`: subtract one above the
initial difficulty; at the initial difficulty the entry is removed. -/
def decreaseDifficulty (r : RateLimiter) (ip : String) : RateLimiter :=
  let currentDifficulty := getDifficultyLocked r ip
  if defaultInitialDifficulty < currentDifficulty then
    { r with difficulties := mapInsert r.difficulties ip (currentDifficulty - 1) }
  else if currentDifficulty = defaultInitialDifficulty then
    { r with difficulties := mapDelete r.difficulties ip }
  else r

/-- `Cleanup` from `middleware.go`: drop expired bans, counters older
than two seconds, and difficulty entries whose IP has neither a counter
nor a ban left (the difficulty pass runs over the already-cleaned
maps). -/
def Cleanup (r : RateLimiter) (now : Int) : RateLimiter :=
  let bans := fun ip => match r.bannedIPs ip with
    | none => none
    | some banTime => if banTime < now then none else some banTime
  let counters := fun ip => match r.connectionsPerIP ip with
    | none => none
    | some c => if c.timestamp < now - 2 * second then none else some c
  let diffs := fun ip => match r.difficulties ip with
    | none => none
    | some d => if (counters ip).isNone ∧ (bans ip).isNone then none else some d
  { connectionsPerIP := counters, bannedIPs := bans, difficulties := diffs }

/-! ## Admission middleware (`RateLimitMiddleware` in `middleware.go`)

The connection is modelled by its closed flag and its pending read and
write deadlines; the fallible steps (challenge generation, challenge
write, solution read, solution validation) and the values returned by
the rate limiter are inputs, so every syntactic branch of the function
is covered. -/

/-- Observable connection state handled by the middleware. -/
structure ConnState where
  closed : Bool
  readDeadline : Option Int
  writeDeadline : Option Int
deriving DecidableEq

/-- `net.Conn.Close`. -/
def connClose (c : ConnState) : ConnState := { c with closed := true }

/-- `SetReadDeadline`; `none` is the zero `time.Time` (clear). On a
closed connection the call errors and changes nothing. -/
def setReadDeadline (c : ConnState) (d : Option Int) : ConnState :=
  if c.closed then c else { c with readDeadline := d }

/-- `SetWriteDeadline`; `none` is the zero `time.Time` (clear). -/
def setWriteDeadline (c : ConnState) (d : Option Int) : ConnState :=
  if c.closed then c else { c with writeDeadline := d }

/-- Branch conditions and step outcomes feeding one run of the
middleware closure. -/
structure MWEnv where
  isTCPAddr : Bool
  banned : Bool
  proceed : Bool
  ban : Bool
  genOk : Bool
  writeOk : Bool
  readOk : Bool
  solutionValid : Bool
  now : Int

/-- The closure returned by `RateLimitMiddleware`, as a function of the
step outcomes: returns the admit decision and the final connection
state, following the source branch for branch. -/
def rateLimitMiddleware (e : MWEnv) (c0 : ConnState) : Bool × ConnState :=
  if ¬ e.isTCPAddr then (false, connClose c0)
  else if e.banned then (false, connClose c0)
  else if e.ban then (false, connClose c0)
  else if ¬ e.proceed then
    -- PoW branch: difficulty is increased, then the challenge generated
    if ¬ e.genOk then (false, connClose c0)
    else
      let c1 := setWriteDeadline c0 (some (e.now + 5 * second))
      if ¬ e.writeOk then (false, setWriteDeadline (connClose c1) none)
      else
        let c2 := setWriteDeadline c1 none
        let c3 := setReadDeadline c2 (some (e.now + 10 * second))
        if ¬ e.readOk then (false, setReadDeadline (connClose c3) none)
        else
          let c4 := setReadDeadline c3 none
          if ¬ e.solutionValid then (false, connClose c4)
          else (true, c4)
  else (true, c0)

/-! ## Retry wrapper (`core/tcp/retry.go`)

Error values are modelled as a small inductive mirroring the error
shapes the wrapper inspects; `errorsIs` follows the `Unwrap` chain of
`ConnectionError` the way `errors.Is` does. The client context is
modelled as never cancelled: the claims under verification do not
involve cancellation. -/

/-- Go error values relevant to the retry wrapper's classification. -/
inductive GoError where
  | connErr (op : String) (cause : GoError) (retryable : Bool)
  | eof
  | errClosed
  | errConnectionClosed
  | errTimeout
  | opError (msg : String)
  | simple (msg : String)
deriving DecidableEq

/-- `errors.Is(err, target)` for the sentinel targets used by the
wrapper: unwraps `ConnectionError` via its `Unwrap` method. -/
def errorsIs : GoError → GoError → Bool
  | GoError.connErr _ cause _, target => errorsIs cause target
  | e, target => e = target

/-- `errors.As(err, &connErr)`: the first `*ConnectionError` in the
unwrap chain, if any. -/
def errorsAsConnErr : GoError → Option (String × GoError × Bool)
  | GoError.connErr op cause retryable => some (op, cause, retryable)
  | _ => none

/-- `errors.As(err, &opErr)` for `*net.OpError` followed by the message
comparison of `ReadWithRetry`'s broken-pipe test. -/
def isBrokenPipe (e : GoError) : Bool :=
  match e with
  | GoError.opError msg =>
    msg = "read: connection reset by peer" ∨ msg = "use of closed network connection"
  | _ => false

/-- The reconnect condition of `WriteWithRetry`:
`errors.As(err, &connErr) && connErr.IsRetryable || errors.Is(err, net.ErrClosed) || errors.Is(err, io.EOF)`
(`&&` binds tighter than `||`, and `connErr` here is the value
`errors.As` filled in). -/
def writeReconnectCond (err : GoError) : Bool :=
  (match errorsAsConnErr err with
   | some (_, _, retryable) => retryable
   | none => false)
  || errorsIs err GoError.errClosed || errorsIs err GoError.eof

/-- How one failed read attempt is classified by `ReadWithRetry`. -/
inductive ReadClass where
  | reconnectPath
  | plainRetry
  | nilDeref
deriving DecidableEq

/-- The classification expression of `ReadWithRetry`:
`errors.Is(err, io.EOF) || errors.Is(err, ErrConnectionClosed) || isBrokenPipe || (errors.As(err, new(*ConnectionError)) && (*new(*ConnectionError)).IsRetryable)`.
The last conjunct allocates a second, fresh nil `*ConnectionError` and
selects `IsRetryable` on it, so whenever `errors.As` succeeds the
selector dereferences a nil pointer and the goroutine panics. -/
def readClassify (err : GoError) : ReadClass :=
  if errorsIs err GoError.eof || errorsIs err GoError.errConnectionClosed || isBrokenPipe err then
    ReadClass.reconnectPath
  else if (errorsAsConnErr err).isSome then ReadClass.nilDeref
  else ReadClass.plainRetry

/-- Outcome of a whole retry loop. -/
inductive RetryOutcome where
  | success
  | reconnectFailed (reconnectErr lastErr : GoError)
  | nonRetryable (e : GoError)
  | exhausted (lastErr : Option GoError)
  | panicked
deriving DecidableEq

/-- The loop of `WriteWithRetry`; each list entry is one attempt: the
`Write` result paired with the `Reconnect` result consulted when the
attempt fails on the reconnect path. -/
def writeWithRetryLoop :
    List (Option GoError × Option GoError) → Option GoError → RetryOutcome
  | [], lastErr => RetryOutcome.exhausted lastErr
  | (wRes, recRes) :: rest, _ =>
    match wRes with
    | none => RetryOutcome.success
    | some err =>
      if writeReconnectCond err then
        match recRes with
        | some recErr => RetryOutcome.reconnectFailed recErr err
        | none => writeWithRetryLoop rest (some err)
      else RetryOutcome.nonRetryable err

/-- `WriteWithRetry` over the attempt outcomes, `maxRetries` being the
list length. -/
def WriteWithRetry (attempts : List (Option GoError × Option GoError)) : RetryOutcome :=
  writeWithRetryLoop attempts none

/-- The loop of `ReadWithRetry`; same shape as the write loop but with
the read-path classification, including the nil-pointer branch. -/
def readWithRetryLoop :
    List (Option GoError × Option GoError) → Option GoError → RetryOutcome
  | [], lastErr => RetryOutcome.exhausted lastErr
  | (rRes, recRes) :: rest, _ =>
    match rRes with
    | none => RetryOutcome.success
    | some err =>
      match readClassify err with
      | ReadClass.reconnectPath =>
        match recRes with
        | some recErr => RetryOutcome.reconnectFailed recErr err
        | none => readWithRetryLoop rest (some err)
      | ReadClass.plainRetry => readWithRetryLoop rest (some err)
      | ReadClass.nilDeref => RetryOutcome.panicked

/-- `ReadWithRetry` over the attempt outcomes. -/
def ReadWithRetry (attempts : List (Option GoError × Option GoError)) : RetryOutcome :=
  readWithRetryLoop attempts none

/-! ## Connection pool (`ConnectionPool` with liveness probe)

The idle buffer is a buffered Go channel of `*Client`: receiving from
it inside `select` yields the oldest item when one is buffered, the
zero value `nil` immediately once the channel is closed and empty, and
falls to the `default` branch when it is open and empty. -/

/-- A pooled client as the probe sees it: whether its `conn` field is
non-nil, and the probe outcome for it (zero-byte read timing out means
alive). -/
structure PooledClient where
  connPresent : Bool
  alive : Bool
deriving DecidableEq

/-- The pool: FIFO buffer contents of the `chan *Client` (entries are
`*Client` pointers, `none` being `nil`), the channel's closed flag, and
the capacity. -/
structure PoolState where
  items : List (Option PooledClient)
  chanClosed : Bool
  maxSize : Nat

/-- `ping` from the pool: `nil` client or `nil` inner connection is
dead; otherwise the zero-byte-read probe decides. -/
def poolPing (conn : Option PooledClient) : Bool :=
  match conn with
  | none => false
  | some cl => if ¬ cl.connPresent then false else cl.alive

/-- What one call to `ConnectionPool.Get` does. -/
inductive GetResult where
  | pooled (c : PooledClient)
  | fromFactory
  | panicked
deriving DecidableEq

/-- `ConnectionPool.Get`: receive an idle client if the channel is
ready, probe it, fall back to the factory on a dead one, and build
fresh when the buffer is open and empty. Receiving from the closed,
drained channel yields `nil`, which fails `ping` and is then passed to
`(*Client).Close`, whose receiver dereference (`c.mu.Lock()`) faults:
that path is `panicked`. -/
def poolGet (p : PoolState) : GetResult × PoolState :=
  match p.items with
  | conn :: rest =>
    match conn with
    | some cl =>
      if poolPing (some cl) then (GetResult.pooled cl, { p with items := rest })
      else (GetResult.fromFactory, { p with items := rest })
    | none => (GetResult.panicked, { p with items := rest })
  | [] =>
    if p.chanClosed then (GetResult.panicked, p)
    else (GetResult.fromFactory, p)

/-- `ConnectionPool.Close`: close the channel, then drain it and close
every drained client, leaving a closed, empty buffer. -/
def poolClose (p : PoolState) : PoolState :=
  { p with items := [], chanClosed := true }

/-! ## Server stats (`core/tcp/server.go`, and the duplicate server
variant in `pool.go`)

Only the operations that touch `Server.stats`, `currentConns` and
`maxConns` are modelled; both server variants mutate exactly
`TotalConnections`, `ActiveConnections` and `LastActivity`. -/

/-- `ServerStats` from `server.go`. -/
structure ServerStats where
  ActiveConnections : Int
  TotalConnections : Int
  BytesRead : Int
  BytesWritten : Int
  LastActivity : Int
deriving DecidableEq

/-- The stats-relevant server state. -/
structure ServerState where
  stats : ServerStats
  currentConns : Int
  maxConns : Int
  started : Bool

/-- `NewServer`: the stats literal sets only `LastActivity`, the other
counters take the Go zero value. -/
def newServer (now : Int) : ServerState :=
  { stats := { ActiveConnections := 0, TotalConnections := 0, BytesRead := 0,
               BytesWritten := 0, LastActivity := now },
    currentConns := 0, maxConns := 65101, started := false }

/-- The server operations that run between construction and shutdown. -/
inductive ServerOp where
  | start (now : Int)
  | acceptConn
  | handlerDone
  | setMaxConnections (n : Int)
  | stop

/-- One step of the server: `Start` stamps `LastActivity`; an accepted
connection over the cap is dropped, under the cap it bumps the
connection counters; a finished handler decrements them; `Stop` leaves
the stats alone. -/
def serverStep (s : ServerState) : ServerOp → ServerState
  | ServerOp.start now =>
    if s.started then s
    else { s with started := true, stats := { s.stats with LastActivity := now } }
  | ServerOp.acceptConn =>
    if s.maxConns ≤ s.currentConns then s
    else
      { s with currentConns := s.currentConns + 1,
               stats := { s.stats with
                          TotalConnections := s.stats.TotalConnections + 1,
                          ActiveConnections := s.stats.ActiveConnections + 1 } }
  | ServerOp.handlerDone =>
    { s with currentConns := s.currentConns - 1,
             stats := { s.stats with
                        ActiveConnections := s.stats.ActiveConnections - 1 } }
  | ServerOp.setMaxConnections n => { s with maxConns := n }
  | ServerOp.stop => s

/-- A run of the server as a fold over its operations. -/
def serverRun (s : ServerState) (ops : List ServerOp) : ServerState :=
  ops.foldl serverStep s

/-! ## Concrete states used by the witnesses -/

/-- A limiter whose only entry is a count-9 current-window counter for
source `"a"`. -/
def rlC3 : RateLimiter :=
  { connectionsPerIP := fun k => if k = "a" then some ⟨9, 0⟩ else none,
    bannedIPs := fun _ => none,
    difficulties := fun _ => none }

/-- A limiter with empty maps. -/
def rlEmpty : RateLimiter :=
  { connectionsPerIP := fun _ => none,
    bannedIPs := fun _ => none,
    difficulties := fun _ => none }

/-- C6's range invariant on the difficulty map. -/
def difficultyInv (r : RateLimiter) : Prop :=
  ∀ ip d, r.difficulties ip = some d →
    defaultInitialDifficulty ≤ d ∧ d ≤ maxDifficulty

/-- The PoW-branch middleware environment with every step succeeding. -/
def mwEnvAll : MWEnv :=
  { isTCPAddr := true, banned := false, proceed := false, ban := false,
    genOk := true, writeOk := true, readOk := true, solutionValid := true, now := 0 }

/-- A fresh open connection with no pending deadlines. -/
def connOpen : ConnState :=
  { closed := false, readDeadline := none, writeDeadline := none }

/-- A concrete 44-byte-framable challenge: timestamp 1700000000,
random bytes `0, 1, ..., 31`, difficulty 4. -/
def powC0 : PoWChallenge :=
  { Timestamp := 1700000000, RandomBytes := List.range 32, Difficulty := 4 }

/-- A concrete solution. -/
def powS0 : PoWSolution := { Nonce := 123456789 }

/-- A concrete zero-difficulty challenge with 32 zero random bytes. -/
def powC1 : PoWChallenge :=
  { Timestamp := 0, RandomBytes := List.replicate 32 0, Difficulty := 0 }

/-! ## Theorems -/

/-- C2: the claim asserts that `checkAndUpdateRate` can return the
(allow pending PoW, no ban) outcome `(false, false)`. It cannot: every
return site of the function yields `(true, false)` or `(false, true)`. -/
theorem checkAndUpdateRate_never_pending :
    ¬ ∃ (r : RateLimiter) (now : Int) (ip : String),
      (checkAndUpdateRate r now ip).1 = (false, false) := by
  rintro ⟨r, now, ip, h⟩
  unfold checkAndUpdateRate at h
  cases hc : r.connectionsPerIP ip <;> rw [hc] at h <;> simp at h
  split_ifs at h <;> simp_all

/-- C2 (amended): `checkAndUpdateRate` attains exactly the two outcomes
(allow, no ban) and (reject, ban newly installed); the
(allow pending PoW, no ban) outcome is unattainable, so the caller's
require-PoW branch is dead code. -/
theorem checkAndUpdateRate_two_outcomes (r : RateLimiter) (now : Int) (ip : String) :
    (checkAndUpdateRate r now ip).1 = (true, false) ∨
    (checkAndUpdateRate r now ip).1 = (false, true) := by
  unfold checkAndUpdateRate
  cases hc : r.connectionsPerIP ip <;> simp
  split_ifs <;> simp

/-- C9: after `ConnectionPool.Close` has drained the buffer and closed
the channel, every `Get` receives the zero value `nil` from the closed
channel, fails the liveness probe, and panics calling `Close` on the
nil `*Client` — it neither returns a client nor an error. -/
theorem poolGet_after_close_panics (p : PoolState) :
    (poolGet (poolClose p)).1 = GetResult.panicked := by
  simp [poolGet, poolClose]

/-- Helper: no server operation touches the byte counters. -/
theorem serverStep_preserves_bytes (s : ServerState) (op : ServerOp) :
    (serverStep s op).stats.BytesRead = s.stats.BytesRead ∧
    (serverStep s op).stats.BytesWritten = s.stats.BytesWritten := by
  cases op <;> simp [serverStep] <;> split <;> simp

/-- Helper: a run from any state keeps the byte counters. -/
theorem serverRun_preserves_bytes (ops : List ServerOp) (s : ServerState) :
    (serverRun s ops).stats.BytesRead = s.stats.BytesRead ∧
    (serverRun s ops).stats.BytesWritten = s.stats.BytesWritten := by
  induction ops generalizing s with
  | nil => exact ⟨rfl, rfl⟩
  | cons op rest ih =>
    have hstep := serverStep_preserves_bytes s op
    have hrest := ih (serverStep s op)
    simp only [serverRun, List.foldl_cons] at *
    exact ⟨hrest.1.trans hstep.1, hrest.2.trans hstep.2⟩

/-- C10: across every sequence of server operations, the server stats
fields `BytesRead` and `BytesWritten` are never modified and stay at
their zero initial value. -/
theorem server_bytes_always_zero (now : Int) (ops : List ServerOp) :
    (serverRun (newServer now) ops).stats.BytesRead = 0 ∧
    (serverRun (newServer now) ops).stats.BytesWritten = 0 := by
  have h := serverRun_preserves_bytes ops (newServer now)
  simpa [newServer] using h

/-- C5: in `WriteWithRetry` a failed attempt whose error the wrapper
flagged retryable (`ConnectionError` with `IsRetryable = true`) takes
the reconnect path: a failing reconnect yields the composite error
wrapping both the reconnect failure and the original error, a
succeeding reconnect continues with the next attempt. In
`ReadWithRetry`, however, the same retryable `ConnectionError` (here
a wrapped read timeout) is classified through a freshly allocated nil
`*ConnectionError`, whose field selection faults: the call panics and
never reaches `Reconnect`. -/
theorem retry_reconnect_write_ok_read_panics :
    (∀ (op : String) (cause : GoError) (rest : List (Option GoError × Option GoError))
        (last : Option GoError) (recErr : GoError),
      writeWithRetryLoop ((some (GoError.connErr op cause true), some recErr) :: rest) last =
        RetryOutcome.reconnectFailed recErr (GoError.connErr op cause true))
    ∧ (∀ (op : String) (cause : GoError) (rest : List (Option GoError × Option GoError))
        (last : Option GoError),
      writeWithRetryLoop ((some (GoError.connErr op cause true), none) :: rest) last =
        writeWithRetryLoop rest (some (GoError.connErr op cause true)))
    ∧ readClassify (GoError.connErr "read" GoError.errTimeout true) = ReadClass.nilDeref
    ∧ ReadWithRetry [(some (GoError.connErr "read" GoError.errTimeout true), none)] =
        RetryOutcome.panicked := by
  refine ⟨?_, ?_, ?_, ?_⟩
  · intro op cause rest last recErr
    simp [writeWithRetryLoop, writeReconnectCond, errorsAsConnErr]
  · intro op cause rest last
    simp [writeWithRetryLoop, writeReconnectCond, errorsAsConnErr]
  · decide
  · decide

/-- C3: with a current window (both calls within one second of
`windowStart`), the call that raises the count from 9 to exactly
`ratePerSec = 10` still returns (allow, no ban) and stores count 10;
the next call in the same window (count 11) returns (reject, ban) and
installs `banUntil[ip] = now + banDuration`. -/
theorem rate_limit_boundary (r : RateLimiter) (ip : String) (w now1 now2 : Int)
    (h9 : r.connectionsPerIP ip = some ⟨9, w⟩)
    (hw1 : now1 - w < second) (hw2 : now2 - w < second) :
    (checkAndUpdateRate r now1 ip).1 = (true, false) ∧
    (checkAndUpdateRate r now1 ip).2.connectionsPerIP ip = some ⟨10, w⟩ ∧
    (checkAndUpdateRate (checkAndUpdateRate r now1 ip).2 now2 ip).1 = (false, true) ∧
    (checkAndUpdateRate (checkAndUpdateRate r now1 ip).2 now2 ip).2.bannedIPs ip =
      some (now2 + banDuration) := by
  have hns : ¬ second ≤ now1 - w := by omega
  have hlim : ¬ defaultRateLimitPerIP < (9 : Int) + 1 := by
    simp [defaultRateLimitPerIP]
  unfold checkAndUpdateRate
  rw [h9]
  simp only [if_neg hns, if_neg hlim, mapInsert, if_pos rfl]
  have hns2 : ¬ second ≤ now2 - w := by omega
  simp [hns2, mapInsert, defaultRateLimitPerIP]

/-- C3 witness at a concrete state. -/
theorem rate_limit_boundary_witness :
    (checkAndUpdateRate rlC3 0 "a").1 = (true, false) ∧
    (checkAndUpdateRate rlC3 0 "a").2.connectionsPerIP "a" = some ⟨10, 0⟩ ∧
    (checkAndUpdateRate (checkAndUpdateRate rlC3 0 "a").2 1 "a").1 = (false, true) ∧
    (checkAndUpdateRate (checkAndUpdateRate rlC3 0 "a").2 1 "a").2.bannedIPs "a" =
      some (1 + banDuration) :=
  rate_limit_boundary rlC3 "a" 0 0 1 rfl (by decide) (by decide)

/-- Helper: `checkAndUpdateRate` either clears the caller's difficulty
entry or leaves the difficulty map alone. -/
theorem checkAndUpdateRate_difficulties (r : RateLimiter) (now : Int) (ip : String) :
    (checkAndUpdateRate r now ip).2.difficulties = mapDelete r.difficulties ip ∨
    (checkAndUpdateRate r now ip).2.difficulties = r.difficulties := by
  unfold checkAndUpdateRate
  cases hc : r.connectionsPerIP ip <;> simp
  split_ifs <;> simp

/-- C6: under the difficulty-map range invariant, the observed
difficulty lies in `[4, 8]`; the invariant is preserved by
`increaseDifficulty`, `decreaseDifficulty`, `checkAndUpdateRate` and
`Cleanup`; increase adds one but a call at 8 leaves 8, decrease
subtracts one above 4 and a call at 4 removes the map entry; an absent
entry reads as 4. -/
theorem difficulty_bounds (r : RateLimiter) (ip : String) (now : Int)
    (hinv : difficultyInv r) :
    (defaultInitialDifficulty ≤ getDifficulty r ip ∧ getDifficulty r ip ≤ maxDifficulty)
    ∧ difficultyInv (increaseDifficulty r ip)
    ∧ difficultyInv (decreaseDifficulty r ip)
    ∧ difficultyInv (checkAndUpdateRate r now ip).2
    ∧ difficultyInv (Cleanup r now)
    ∧ (getDifficulty r ip = maxDifficulty →
        getDifficulty (increaseDifficulty r ip) ip = maxDifficulty)
    ∧ (getDifficulty r ip < maxDifficulty →
        getDifficulty (increaseDifficulty r ip) ip = getDifficulty r ip + 1)
    ∧ (defaultInitialDifficulty < getDifficulty r ip →
        getDifficulty (decreaseDifficulty r ip) ip = getDifficulty r ip - 1)
    ∧ (getDifficulty r ip = defaultInitialDifficulty →
        (decreaseDifficulty r ip).difficulties ip = none)
    ∧ (r.difficulties ip = none → getDifficulty r ip = defaultInitialDifficulty) := by
  have hcur : 4 ≤ getDifficultyLocked r ip ∧ getDifficultyLocked r ip ≤ 8 := by
    unfold getDifficultyLocked
    cases hd : r.difficulties ip with
    | none => simp [defaultInitialDifficulty]
    | some d =>
      have := hinv ip d hd
      simp only [defaultInitialDifficulty, maxDifficulty] at this
      exact this
  refine ⟨?_, ?_, ?_, ?_, ?_, ?_, ?_, ?_, ?_, ?_⟩
  · simpa [getDifficulty, defaultInitialDifficulty, maxDifficulty] using hcur
  · intro ip2 d2 h2
    by_cases ha : getDifficultyLocked r ip < maxDifficulty
    · simp only [increaseDifficulty, mapInsert, ha, if_true] at h2
      by_cases he : ip2 = ip
      · rw [if_pos he] at h2
        have hd2 := Option.some.inj h2
        simp only [defaultInitialDifficulty, maxDifficulty] at *
        omega
      · rw [if_neg he] at h2
        exact hinv ip2 d2 h2
    · simp only [increaseDifficulty, ha, if_false] at h2
      exact hinv ip2 d2 h2
  · intro ip2 d2 h2
    by_cases ha : defaultInitialDifficulty < getDifficultyLocked r ip
    · simp only [decreaseDifficulty, mapInsert, ha, if_true] at h2
      by_cases he : ip2 = ip
      · rw [if_pos he] at h2
        have hd2 := Option.some.inj h2
        simp only [defaultInitialDifficulty, maxDifficulty] at *
        omega
      · rw [if_neg he] at h2
        exact hinv ip2 d2 h2
    · by_cases hb : getDifficultyLocked r ip = defaultInitialDifficulty
      · simp only [decreaseDifficulty, mapDelete, hb, lt_self_iff_false, if_false,
          eq_self_iff_true, if_true] at h2
        by_cases he : ip2 = ip
        · rw [if_pos he] at h2
          simp at h2
        · rw [if_neg he] at h2
          exact hinv ip2 d2 h2
      · simp only [decreaseDifficulty, ha, hb, if_false] at h2
        exact hinv ip2 d2 h2
  · intro ip2 d2 h2
    rcases checkAndUpdateRate_difficulties r now ip with h | h
    · rw [h] at h2
      unfold mapDelete at h2
      split_ifs at h2 with he
      exact hinv ip2 d2 h2
    · rw [h] at h2
      exact hinv ip2 d2 h2
  · intro ip2 d2 h2
    simp only [Cleanup] at h2
    cases hd2 : r.difficulties ip2 with
    | none =>
      rw [hd2] at h2
      simp at h2
    | some d =>
      rw [hd2] at h2
      simp only at h2
      split_ifs at h2 with ha
      exact Option.some.inj h2 ▸ hinv ip2 d hd2
  · intro h
    unfold getDifficulty at *
    have hge : ¬ getDifficultyLocked r ip < maxDifficulty := by omega
    simp only [increaseDifficulty, hge, if_false]
    exact h
  · intro h
    unfold getDifficulty at *
    simp only [increaseDifficulty, h, if_true]
    simp [getDifficultyLocked, mapInsert]
  · intro h
    unfold getDifficulty at *
    simp only [decreaseDifficulty, h, if_true]
    simp [getDifficultyLocked, mapInsert]
  · intro h
    unfold getDifficulty at *
    have hlt : ¬ defaultInitialDifficulty < getDifficultyLocked r ip := by omega
    simp only [decreaseDifficulty, hlt, if_false, h, if_true]
    simp [mapDelete]
  · intro h
    unfold getDifficulty getDifficultyLocked
    rw [h]

/-- C6 witness at the empty limiter. -/
theorem difficulty_bounds_witness :
    (defaultInitialDifficulty ≤ getDifficulty rlEmpty "a" ∧
      getDifficulty rlEmpty "a" ≤ maxDifficulty)
    ∧ difficultyInv (increaseDifficulty rlEmpty "a")
    ∧ difficultyInv (decreaseDifficulty rlEmpty "a")
    ∧ difficultyInv (checkAndUpdateRate rlEmpty 0 "a").2
    ∧ difficultyInv (Cleanup rlEmpty 0)
    ∧ (getDifficulty rlEmpty "a" = maxDifficulty →
        getDifficulty (increaseDifficulty rlEmpty "a") "a" = maxDifficulty)
    ∧ (getDifficulty rlEmpty "a" < maxDifficulty →
        getDifficulty (increaseDifficulty rlEmpty "a") "a" = getDifficulty rlEmpty "a" + 1)
    ∧ (defaultInitialDifficulty < getDifficulty rlEmpty "a" →
        getDifficulty (decreaseDifficulty rlEmpty "a") "a" = getDifficulty rlEmpty "a" - 1)
    ∧ (getDifficulty rlEmpty "a" = defaultInitialDifficulty →
        (decreaseDifficulty rlEmpty "a").difficulties "a" = none)
    ∧ (rlEmpty.difficulties "a" = none →
        getDifficulty rlEmpty "a" = defaultInitialDifficulty) :=
  difficulty_bounds rlEmpty "a" 0 (fun ip d h => by simp [rlEmpty] at h)

/-- C7: a first-ever touch or a touch at least one second past the
stored `windowStart` installs a fresh counter `{count = 1,
windowStart = now}`, clears the difficulty entry, and returns
(allow, no ban); a same-window touch increments the stored count by
one, the incremented value deciding (and surviving in the map unless
it exceeds the limit and the entry is dropped with the ban). -/
theorem window_reset_or_increment (r : RateLimiter) (now : Int) (ip : String) :
    ((∀ c, r.connectionsPerIP ip = some c → second ≤ now - c.timestamp) →
      (checkAndUpdateRate r now ip).1 = (true, false) ∧
      (checkAndUpdateRate r now ip).2.connectionsPerIP ip = some ⟨1, now⟩ ∧
      (checkAndUpdateRate r now ip).2.difficulties ip = none)
    ∧ (∀ c, r.connectionsPerIP ip = some c → now - c.timestamp < second →
      (checkAndUpdateRate r now ip).1 =
        (if defaultRateLimitPerIP < c.count + 1 then (false, true) else (true, false)) ∧
      (checkAndUpdateRate r now ip).2.connectionsPerIP ip =
        (if defaultRateLimitPerIP < c.count + 1 then none
         else some ⟨c.count + 1, c.timestamp⟩)) := by
  constructor
  · intro hfresh
    unfold checkAndUpdateRate
    cases hc : r.connectionsPerIP ip with
    | none => simp [mapInsert, mapDelete]
    | some c =>
      have hts := hfresh c hc
      simp [hts, mapInsert, mapDelete]
  · intro c hc hts
    have hns : ¬ second ≤ now - c.timestamp := by omega
    unfold checkAndUpdateRate
    rw [hc]
    simp only [if_neg hns]
    by_cases hlim : defaultRateLimitPerIP < c.count + 1
    · simp [hlim, mapDelete]
    · simp [hlim, mapInsert]

/-- C7 witness: a fresh touch on the empty limiter, and a same-window
touch on the count-9 limiter. -/
theorem window_reset_or_increment_witness :
    ((checkAndUpdateRate rlEmpty 0 "a").1 = (true, false) ∧
      (checkAndUpdateRate rlEmpty 0 "a").2.connectionsPerIP "a" = some ⟨1, 0⟩ ∧
      (checkAndUpdateRate rlEmpty 0 "a").2.difficulties "a" = none)
    ∧ ((checkAndUpdateRate rlC3 0 "a").1 =
        (if defaultRateLimitPerIP < (9 : Int) + 1 then (false, true) else (true, false)) ∧
      (checkAndUpdateRate rlC3 0 "a").2.connectionsPerIP "a" =
        (if defaultRateLimitPerIP < (9 : Int) + 1 then none
         else some ⟨(9 : Int) + 1, 0⟩)) :=
  ⟨(window_reset_or_increment rlEmpty 0 "a").1 (fun c h => by simp [rlEmpty] at h),
   (window_reset_or_increment rlC3 0 "a").2 ⟨9, 0⟩ rfl (by decide)⟩

/-- C8: every rejecting path of the admission middleware closes the
connection before returning, and every admitting path leaves it open
with no pending read or write deadline. -/
theorem middleware_close_contract (e : MWEnv) (c0 : ConnState)
    (hopen : c0.closed = false) (hrd : c0.readDeadline = none)
    (hwd : c0.writeDeadline = none) :
    ((rateLimitMiddleware e c0).1 = false → (rateLimitMiddleware e c0).2.closed = true)
    ∧ ((rateLimitMiddleware e c0).1 = true →
        (rateLimitMiddleware e c0).2.closed = false ∧
        (rateLimitMiddleware e c0).2.readDeadline = none ∧
        (rateLimitMiddleware e c0).2.writeDeadline = none) := by
  obtain ⟨cl, rd, wd⟩ := c0
  simp only at hopen hrd hwd
  subst hopen hrd hwd
  obtain ⟨tcp, bd, pr, bn, gen, wok, rok, sv, nowv⟩ := e
  cases tcp <;> cases bd <;> cases pr <;> cases bn <;> cases gen <;> cases wok <;>
    cases rok <;> cases sv <;>
      simp [rateLimitMiddleware, connClose, setReadDeadline, setWriteDeadline]

/-- C8 witness on the all-checks-pass environment and a fresh open
connection. -/
theorem middleware_close_contract_witness :
    ((rateLimitMiddleware mwEnvAll connOpen).1 = false →
      (rateLimitMiddleware mwEnvAll connOpen).2.closed = true)
    ∧ ((rateLimitMiddleware mwEnvAll connOpen).1 = true →
        (rateLimitMiddleware mwEnvAll connOpen).2.closed = false ∧
        (rateLimitMiddleware mwEnvAll connOpen).2.readDeadline = none ∧
        (rateLimitMiddleware mwEnvAll connOpen).2.writeDeadline = none) :=
  middleware_close_contract mwEnvAll connOpen rfl rfl rfl

/-- Helper: an exact-length read takes back precisely what was
written. -/
theorem readBytes_exact (n : Nat) (l r : List Nat) (h : l.length = n) :
    readBytes n (l ++ r) = some (l, r) := by
  subst h
  simp [readBytes, List.take_left, List.drop_left]

/-- Helper: an exact-length read of the whole stream. -/
theorem readBytes_all (n : Nat) (l : List Nat) (h : l.length = n) :
    readBytes n l = some (l, []) := by
  have h2 := readBytes_exact n l [] h
  simpa using h2

/-- Helper: `PutUint64` frames exactly 8 bytes. -/
theorem putUint64_length (v : Nat) : (putUint64 v).length = 8 := rfl

/-- Helper: `PutUint32` frames exactly 4 bytes. -/
theorem putUint32_length (v : Nat) : (putUint32 v).length = 4 := rfl

/-- Helper: big-endian decoding inverts `PutUint64` below `2^64`. -/
theorem beBytesToNat_putUint64 (v : Nat) (h : v < 2 ^ 64) :
    beBytesToNat (putUint64 v) = v := by
  simp only [putUint64, beBytesToNat, toByte, Nat.shiftRight_eq_div_pow, List.foldl_cons,
    List.foldl_nil]
  omega

/-- Helper: big-endian decoding inverts `PutUint32` below `2^32`. -/
theorem beBytesToNat_putUint32 (v : Nat) (h : v < 2 ^ 32) :
    beBytesToNat (putUint32 v) = v := by
  simp only [putUint32, beBytesToNat, toByte, Nat.shiftRight_eq_div_pow, List.foldl_cons,
    List.foldl_nil]
  omega

/-- Helper: the `uint64` image of an in-range `int64` is below `2^64`. -/
theorem int64ToUint64_lt (ts : Int) : int64ToUint64 ts < 2 ^ 64 := by
  unfold int64ToUint64
  omega

/-- Helper: two's-complement reinterpretation inverts the `uint64`
conversion on the `int64` range. -/
theorem uint64ToInt64_int64ToUint64 (ts : Int)
    (h1 : -(2 ^ 63) ≤ ts) (h2 : ts < 2 ^ 63) :
    uint64ToInt64 (int64ToUint64 ts) = ts := by
  unfold uint64ToInt64 int64ToUint64
  split_ifs <;> omega

/-- Helper: the `uint32` image of an in-range `int32` is below `2^32`. -/
theorem int32ToUint32_lt (d : Int) : int32ToUint32 d < 2 ^ 32 := by
  unfold int32ToUint32
  omega

/-- Helper: two's-complement reinterpretation inverts the `uint32`
conversion on the `int32` range. -/
theorem uint32ToInt32_int32ToUint32 (d : Int)
    (h1 : -(2 ^ 31) ≤ d) (h2 : d < 2 ^ 31) :
    uint32ToInt32 (int32ToUint32 d) = d := by
  unfold uint32ToInt32 int32ToUint32
  split_ifs <;> omega

/-- C4: over the 44-byte challenge framing and the 8-byte solution
framing, reading back what was written round-trips to an equal record,
for every challenge with a 32-byte random field (timestamp and
difficulty carrying `int64`/`int32` values, the nonce a `uint64`
value). -/
theorem pow_wire_roundtrip (c : PoWChallenge) (s : PoWSolution)
    (hlen : c.RandomBytes.length = 32)
    (hts1 : -(2 ^ 63) ≤ c.Timestamp) (hts2 : c.Timestamp < 2 ^ 63)
    (hd1 : -(2 ^ 31) ≤ c.Difficulty) (hd2 : c.Difficulty < 2 ^ 31)
    (hn : s.Nonce < 2 ^ 64) :
    ReadPoWChallenge (WritePoWChallenge c) = some (c, []) ∧
    ReadPoWSolution (WritePoWSolution s) = some (s, []) := by
  constructor
  · unfold WritePoWChallenge ReadPoWChallenge
    simp only [List.append_assoc]
    simp only [readBytes_exact 8 (putUint64 (int64ToUint64 c.Timestamp))
        (c.RandomBytes ++ putUint32 (int32ToUint32 c.Difficulty)) (putUint64_length _),
      readBytes_exact 32 c.RandomBytes (putUint32 (int32ToUint32 c.Difficulty)) hlen,
      readBytes_all 4 (putUint32 (int32ToUint32 c.Difficulty)) (putUint32_length _),
      beBytesToNat_putUint64 _ (int64ToUint64_lt c.Timestamp),
      beBytesToNat_putUint32 _ (int32ToUint32_lt c.Difficulty),
      uint64ToInt64_int64ToUint64 c.Timestamp hts1 hts2,
      uint32ToInt32_int32ToUint32 c.Difficulty hd1 hd2]
  · unfold WritePoWSolution ReadPoWSolution
    simp only [readBytes_all 8 (putUint64 s.Nonce) (putUint64_length _),
      beBytesToNat_putUint64 s.Nonce hn]

/-- C4 witness at a concrete challenge and solution. -/
theorem pow_wire_roundtrip_witness :
    ReadPoWChallenge (WritePoWChallenge powC0) = some (powC0, []) ∧
    ReadPoWSolution (WritePoWSolution powS0) = some (powS0, []) :=
  pow_wire_roundtrip powC0 powS0 (by decide) (by decide) (by decide)
    (by decide) (by decide) (by decide)

/-- Helper: the `copy` into the zeroed 32-byte region is the identity
on 32-byte inputs. -/
theorem copyInto32_of_length (rb : List Nat) (h : rb.length = 32) :
    copyInto32 rb = rb := by
  unfold copyInto32
  rw [h]
  simp [List.take_of_length_le (le_of_eq h)]

/-- Helper: the leading-zero count is never negative. -/
theorem countLeadingZeros_nonneg (l : List Nat) : 0 ≤ countLeadingZeros l := by
  induction l with
  | nil => simp [countLeadingZeros]
  | cons b rest ih =>
    unfold countLeadingZeros
    split_ifs with hb
    · omega
    · exact Int.natCast_nonneg _

/-- C1: `ValidatePoWSolution` at verification time `now` accepts
exactly when the SHA-256 digest of the 48-byte concatenation
`timestamp(8) || randomBytes(32) || nonce(8)` has at least
`Difficulty` leading zero bits and the challenge is at most 60 seconds
old; age 61 is rejected, and difficulty 0 accepts any nonce within the
age bound. -/
theorem validate_pow_semantics (now : Int) (c : PoWChallenge) (s : PoWSolution)
    (hlen : c.RandomBytes.length = 32) :
    (ValidatePoWSolution now c s = true ↔
      (c.Difficulty ≤ countLeadingZeros (sha256 (putUint64 (int64ToUint64 c.Timestamp) ++
          c.RandomBytes ++ putUint64 s.Nonce)) ∧ now - c.Timestamp ≤ 60))
    ∧ (now - c.Timestamp = 61 → ValidatePoWSolution now c s = false)
    ∧ (c.Difficulty = 0 → now - c.Timestamp ≤ 60 → ValidatePoWSolution now c s = true) := by
  have hbuf : powBuffer c s =
      putUint64 (int64ToUint64 c.Timestamp) ++ c.RandomBytes ++ putUint64 s.Nonce := by
    unfold powBuffer
    rw [copyInto32_of_length c.RandomBytes hlen]
  refine ⟨?_, ?_, ?_⟩
  · unfold ValidatePoWSolution
    rw [hbuf]
    split_ifs with hage
    · have hno : ¬ (now - c.Timestamp ≤ 60) := by omega
      simp [hno]
    · have hle : now - c.Timestamp ≤ 60 := by omega
      simp [hle]
  · intro h61
    unfold ValidatePoWSolution
    rw [if_pos (by omega)]
  · intro h0 hle
    unfold ValidatePoWSolution
    rw [if_neg (by omega)]
    simp [h0, countLeadingZeros_nonneg]

/-- C1 witness at a zero-difficulty challenge. -/
theorem validate_pow_semantics_witness :
    (ValidatePoWSolution 0 powC1 powS0 = true ↔
      (powC1.Difficulty ≤ countLeadingZeros (sha256 (putUint64 (int64ToUint64 powC1.Timestamp) ++
          powC1.RandomBytes ++ putUint64 powS0.Nonce)) ∧ (0 : Int) - powC1.Timestamp ≤ 60))
    ∧ ((0 : Int) - powC1.Timestamp = 61 → ValidatePoWSolution 0 powC1 powS0 = false)
    ∧ (powC1.Difficulty = 0 → (0 : Int) - powC1.Timestamp ≤ 60 →
        ValidatePoWSolution 0 powC1 powS0 = true) :=
  validate_pow_semantics 0 powC1 powS0 (by decide)

end Faraway
